import Mathlib

/-!
Shallow embedding of the crop-recommender application (`src/app.py`) and
proofs about its data-loading, column-resolution, training and prediction
pipeline.  Pure parts of the Python source are translated into executable
Lean functions; the effectful parts (Streamlit `st.error`/`st.stop`,
raised exceptions, the model file on disk) are made explicit via
`Except`-style result types and explicit store values.
-/

set_option autoImplicit false

namespace CropApp

/-- Cell values appearing in the tabular dataset: numbers (months,
temperatures, rainfall, pH) or text (crop names, descriptive fields).
Numbers are modelled as rationals since pH is a real slider value. -/
inductive Value where
  | num (q : ℚ)
  | str (s : String)
deriving DecidableEq, Repr

/-- Coercion of a cell to a number, as used when a column is fed to the
classifier as a feature.  Non-numeric cells default to 0 (the real code
would hand the raw column to scikit-learn; the claims under proof never
depend on this corner). -/
def Value.toRat : Value → ℚ
  | .num q => q
  | .str _ => 0

/-- Coercion of a cell to a label string, as used for the target column. -/
def Value.toLabel : Value → String
  | .str s => s
  | .num q => toString q

/-- A pandas DataFrame, modelled as a list of column names plus a list of
rows, each row a list of cells aligned with `columns`. -/
structure DataFrame where
  columns : List String
  rows : List (List Value)
deriving DecidableEq, Repr

/-- Index of a named column (`df.columns.indexOf name` in pandas terms);
equals `columns.length` when the name is absent. -/
def DataFrame.colIndex (df : DataFrame) (name : String) : Nat :=
  df.columns.indexOf name

/-- The cell of a row in a named column (0 when out of range, which the
claims never exercise). -/
def DataFrame.cell (df : DataFrame) (row : List Value) (name : String) : Value :=
  row.getD (df.colIndex name) (.num 0)

/-! ## Dataset loader (`load_data`, src/app.py lines 10-24) -/

/-- Outcome of one `pd.read_csv('crop_data.csv', encoding=e)` call:
a parsed frame, a `UnicodeDecodeError`, a `FileNotFoundError`, or any
other raised exception (e.g. a CSV parser error). -/
inductive AttemptResult where
  | success (df : DataFrame)
  | decodeError
  | notFound
  | otherError
deriving DecidableEq, Repr

/-- The encodings tried by `load_data`, in source order
(`encodings = ['utf-8', 'gbk', 'utf-16', 'utf-8-sig']`). -/
def encodings : List String := ["utf-8", "gbk", "utf-16", "utf-8-sig"]

/-- Whitespace characters stripped by Python's `str.strip()` (the ASCII
whitespace set; wider Unicode whitespace is not needed by the claims). -/
def isPySpace (c : Char) : Bool :=
  c = ' ' || c = '\t' || c = '\n' || c = '\x0d' || c = '\x0b' || c = '\x0c'

/-- Python `str.strip()`: drop leading and trailing whitespace. -/
def pyStrip (s : List Char) : List Char :=
  ((s.dropWhile isPySpace).reverse.dropWhile isPySpace).reverse

/-- Python `str.replace(c, '')`: remove every occurrence of a character. -/
def removeChar (c : Char) (s : List Char) : List Char :=
  s.filter (fun d => d ≠ c)

/-- Column-name normalization from line 18 of the source:
`.str.strip().str.replace(' ', '').str.replace('(', '').str.replace(')', '')`. -/
def normalizeCol (s : String) : String :=
  String.mk (removeChar ')' (removeChar '(' (removeChar ' ' (pyStrip s.data))))

/-- Normalization applied to every column label of a freshly parsed frame
(`df.columns = df.columns.str.strip()...`, line 18). -/
def normalizeColumns (df : DataFrame) : DataFrame :=
  { df with columns := df.columns.map normalizeCol }

/-- Result of `load_data`: a parsed and normalized frame, the
`st.error`/`st.stop` failure after the encoding loop is exhausted (line
23-24), or an exception escaping the loop (one the `except` clause on
line 20 does not catch). -/
inductive LoadResult where
  | ok (df : DataFrame)
  | loadError
  | raised
deriving DecidableEq, Repr

/-- The encoding loop of `load_data` (lines 14-21): try each encoding in
turn; on success return the normalized frame; `UnicodeDecodeError` and
`FileNotFoundError` are caught and the next encoding is tried; any other
exception propagates.  Also records which encodings were attempted. -/
def loadAux (attempt : String → AttemptResult) : List String → LoadResult × List String
  | [] => (.loadError, [])
  | e :: rest =>
    match attempt e with
    | .success df => (.ok (normalizeColumns df), [e])
    | .decodeError => ((loadAux attempt rest).1, e :: (loadAux attempt rest).2)
    | .notFound => ((loadAux attempt rest).1, e :: (loadAux attempt rest).2)
    | .otherError => (.raised, [e])

/-- The loader `load_data` itself, abstracted over the file system: the
`attempt` function gives the outcome of parsing `crop_data.csv` under a
given encoding (a missing file yields `notFound` for every encoding). -/
def load_data (attempt : String → AttemptResult) : LoadResult :=
  (loadAux attempt encodings).1

/-- The encodings actually attempted during a `load_data` call. -/
def attemptedEncodings (attempt : String → AttemptResult) : List String :=
  (loadAux attempt encodings).2

/-- The diagnostic shown by `st.error` on line 23 when every encoding
fails. -/
def load_error_message : String :=
  "无法加载数据文件，请检查：\n1. 文件是否存在\n2. 文件编码格式"

/-- Checks that a character list begins with a pattern. -/
def leadsWith : List Char → List Char → Bool
  | _, [] => true
  | [], _ :: _ => false
  | c :: cs, p :: ps => c == p && leadsWith cs ps

/-- Checks that a pattern occurs contiguously inside a character list. -/
def containsPattern : List Char → List Char → Bool
  | s, pat =>
    if leadsWith s pat then true
    else match s with
      | [] => false
      | _ :: t => containsPattern t pat

/-- Substring test on strings, used to ask whether a diagnostic message
names a given encoding. -/
def msgMentions (msg pat : String) : Bool :=
  containsPattern msg.data pat.data

/-! ## Column resolver (`train_model`, src/app.py lines 30-47) -/

/-- The alias table `col_mapping` from lines 30-36, in source order. -/
def col_mapping : List (String × List String) :=
  [("month", ["种植月", "月份", "month"]),
   ("temp", ["温度℃", "温度", "temp"]),
   ("rain", ["降雨mm", "降雨", "rain"]),
   ("ph", ["土壤pH", "pH值", "ph"]),
   ("crop", ["作物", "crop"])]

/-- The resolver loop of lines 40-47: for each role in table order, pick
the first alias present among the frame's columns (`break` at the first
hit); if no alias matches, fail with the role and its tried aliases
(`st.error(...); st.stop()`), producing no partial result. -/
def resolveAux (cols : List String) :
    List (String × List String) → Except (String × List String) (List (String × String))
  | [] => .ok []
  | (role, names) :: rest =>
    match names.find? (fun n => cols.contains n) with
    | some name => (resolveAux cols rest).map (fun sel => (role, name) :: sel)
    | none => .error (role, names)

/-- Resolution of all five roles against a frame's (normalized) column
names (`selected_cols` in the source). -/
def resolveCols (cols : List String) : Except (String × List String) (List (String × String)) :=
  resolveAux cols col_mapping

/-! ## Model trainer (`train_model`, src/app.py lines 49-56) -/

/-- Modelled from the spec: the decision-tree classifier internals are
external to this repository (scikit-learn, which the spec excludes as an
opaque classifier).  What the claims need is that the fitted model is a
deterministic decision function of the hyperparameters (`max_depth`,
`random_state`) and the training data, and that — like scikit-learn's
`feature_names_in_` check — prediction validates the feature names it is
given against the names seen at fit time.  The model therefore records
its hyperparameters, the feature column names of the training frame, and
the training examples, and decides by exact-match lookup with a
deterministic fallback. -/
structure DTModel where
  max_depth : Nat
  random_state : Nat
  feature_names : List String
  table : List (List ℚ × String)
deriving DecidableEq, Repr

/-- Modelled from the spec: `DecisionTreeClassifier(...).fit(X, y)` as a
deterministic function of hyperparameters and data. -/
def DTModel.fit (max_depth random_state : Nat) (feature_names : List String)
    (x : List (List ℚ)) (y : List String) : DTModel :=
  ⟨max_depth, random_state, feature_names, x.zip y⟩

/-- Modelled from the spec: the fitted model's decision function on one
feature row — deterministic, total on numeric rows. -/
def DTModel.decide (m : DTModel) (row : List ℚ) : String :=
  match m.table.find? (fun p => p.1 == row) with
  | some p => p.2
  | none => ((m.table.head?).map (fun p => p.2)).getD ""

/-- Errors that can escape the prediction block (lines 87-113) and be
caught by its `except Exception` handler on line 115. -/
inductive PredictError where
  | featureNameMismatch (trained given : List String)
  | keyError (col : String)
  | indexError
deriving DecidableEq, Repr

/-- Modelled from the spec: `model.predict(input_data)[0]` on a one-row
DataFrame, with scikit-learn's check that the input frame's columns match
`feature_names_in_` from fit time. -/
def DTModel.predictOne (m : DTModel) (cols : List String) (row : List ℚ) :
    Except PredictError String :=
  if cols = m.feature_names then .ok (m.decide row) else
    .error (.featureNameMismatch m.feature_names cols)

/-- Seed resolution of `random_state`: an explicit seed is used as given;
`random_state=None` would fall back to ambient randomness.  The source
always passes the literal 42. -/
def resolveSeed : Option Nat → Nat → Nat
  | some s, _ => s
  | none, ambient => ambient

/-- The alias of a role in a resolved `selected_cols` association list. -/
def selName (sel : List (String × String)) (role : String) : String :=
  ((sel.find? (fun p => p.1 == role)).map (fun p => p.2)).getD ""

/-- The trainer `train_model` (lines 28-56): resolve the five roles, build
`X = df[[month, temp, rain, ph]]` (role order, row order preserved) and
`y = df[crop]`, and fit `DecisionTreeClassifier(max_depth=3,
random_state=42)`.  `ambient_rng` models the interpreter's ambient
randomness, which an explicit `random_state` makes irrelevant.  The
resolver's `st.stop()` failure is the `.error` case — no model is
produced.  (The `joblib.dump` persistence of line 55 is modelled at the
caller, `resolveModel` below.) -/
def train_model (ambient_rng : Nat) (df : DataFrame) :
    Except (String × List String) DTModel :=
  match resolveCols df.columns with
  | .error e => .error e
  | .ok sel =>
    let featureCols := [selName sel "month", selName sel "temp",
                        selName sel "rain", selName sel "ph"]
    let x := df.rows.map (fun row => featureCols.map (fun c => (df.cell row c).toRat))
    let y := df.rows.map (fun row => (df.cell row (selName sel "crop")).toLabel)
    .ok (DTModel.fit 3 (resolveSeed (some 42) ambient_rng) featureCols x y)

/-! ## Predictor (src/app.py lines 80-116) -/

/-- The model-resolution step of lines 81-85: try `joblib.load('model.pkl')`;
on `FileNotFoundError` train (and, per line 55, persist) a fresh model.
The store is the content of `model.pkl` (`none` = file absent).  The
result carries the model to use, the store afterwards, and whether the
trainer was invoked. -/
def resolveModel (ambient_rng : Nat) (df : DataFrame) (store : Option DTModel) :
    Except (String × List String) (DTModel × Option DTModel × Bool) :=
  match store with
  | some m => .ok (m, some m, false)
  | none =>
    match train_model ambient_rng df with
    | .ok m => .ok (m, some m, true)
    | .error e => .error e

/-- The hard-coded prediction-time column names of line 90:
`columns=['种植月', '温度℃', '降雨mm', '土壤pH']`. -/
def input_columns : List String := ["种植月", "温度℃", "降雨mm", "土壤pH"]

/-- Lines 89-93: build the one-row input frame with the fixed column
names and predict a crop label. -/
def predictCrop (m : DTModel) (month temp rain : ℤ) (ph : ℚ) :
    Except PredictError String :=
  m.predictOne input_columns [(month : ℚ), (temp : ℚ), (rain : ℚ), ph]

/-- Line 97: `crop_info = df[df['作物'] == crop].iloc[0]` — filter the
frame on the hard-coded crop column and take the first row.  An absent
column raises `KeyError`; an empty filter result makes `.iloc[0]` raise
`IndexError` (a generic positional-indexing error carrying no label). -/
def crop_info (df : DataFrame) (crop : String) : Except PredictError (List Value) :=
  if df.columns.contains "作物" then
    match df.rows.filter (fun row => df.cell row "作物" == .str crop) with
    | [] => .error .indexError
    | row :: _ => .ok row
  else .error (.keyError "作物")

/-- The whole prediction block of lines 87-113: predict a label, then
look up its descriptive record; any error is caught by line 115 and
reported to the user (`st.error`), never returned as a partial result. -/
def prediction_block (m : DTModel) (df : DataFrame) (month temp rain : ℤ) (ph : ℚ) :
    Except PredictError (String × List Value) :=
  match predictCrop m month temp rain ph with
  | .error e => .error e
  | .ok crop =>
    match crop_info df crop with
    | .error e => .error e
    | .ok info => .ok (crop, info)

/-! ## Concrete fixtures used by witnesses and counterexamples -/

/-- A dataset in the shape the source's own CSV uses: first-alias
(Chinese) column names, one record (the spec's Rice scenario row). -/
def dfZh : DataFrame :=
  ⟨["种植月", "温度℃", "降雨mm", "土壤pH", "作物", "常见问题", "产量等级"],
   [[.num 5, .num 25, .num 800, .num 6, .str "Rice", .str "Blight", .str "High"]]⟩

/-- The model `train_model` produces on `dfZh`. -/
def modelZh : DTModel :=
  DTModel.fit 3 42 input_columns [[5, 25, 800, 6]] ["Rice"]

/-- A dataset whose columns use the accepted English aliases
(`month`/`temp`/`rain`/`ph`/`crop` all appear in `col_mapping`). -/
def dfEng : DataFrame :=
  ⟨["month", "temp", "rain", "ph", "crop"],
   [[.num 5, .num 25, .num 800, .num 7, .str "Rice"]]⟩

/-- A dataset containing only a Rice record, for description lookups of
labels that are absent. -/
def df4 : DataFrame := ⟨["作物", "温度℃"], [[.str "Rice", .num 25]]⟩

/-- A raw (pre-normalization) frame whose single column name hides a tab
between parentheses. -/
def rawDf6 : DataFrame := ⟨["(\tcol)"], []⟩

/-- A file that parses under utf-8 as `rawDf6`. -/
def attempt6 : String → AttemptResult :=
  fun e => if e = "utf-8" then .success rawDf6 else .decodeError

/-- A file that fails to decode as utf-8 but parses under gbk. -/
def attempt5 : String → AttemptResult :=
  fun e => if e = "gbk" then .success dfZh else .decodeError

/-- Column names mixing aliases, with both `月份` and `month` present for
the month role (`month` listed first in the dataset). -/
def cols0 : List String := ["month", "月份", "temp", "降雨", "pH值", "crop"]

/-- A model fitted on the prediction-time column names that predicts the
label "Maize" (absent from `df4`). -/
def modelM : DTModel :=
  DTModel.fit 3 42 input_columns [[1, 1, 1, 1]] ["Maize"]

/-- The model `train_model` produces on the English-alias dataset. -/
def modelEng : DTModel :=
  DTModel.fit 3 42 ["month", "temp", "rain", "ph"] [[5, 25, 800, 7]] ["Rice"]

/-! ## Loader lemmas -/

/-- When every encoding in the list fails with a caught error, the loop
runs to the end and produces the load-error diagnostic, having attempted
every encoding. -/
lemma loadAux_all_skip (attempt : String → AttemptResult) :
    ∀ es : List String,
      (∀ e ∈ es, attempt e = .decodeError ∨ attempt e = .notFound) →
      loadAux attempt es = (.loadError, es) := by
  intro es
  induction es with
  | nil => intro _; rfl
  | cons e t ih =>
    intro h
    rcases h e (List.mem_cons_self e t) with he | he <;>
      simp [loadAux, he, ih fun x hx => h x (List.mem_cons_of_mem e hx)]

/-- The loop ends in the load-error diagnostic exactly when every
encoding in the list fails with a caught error. -/
lemma loadAux_loadError_iff (attempt : String → AttemptResult) :
    ∀ es : List String,
      (loadAux attempt es).1 = .loadError ↔
        ∀ e ∈ es, attempt e = .decodeError ∨ attempt e = .notFound := by
  intro es
  induction es with
  | nil => simp [loadAux]
  | cons e t ih =>
    match hae : attempt e with
    | .success df => simp [loadAux, hae]
    | .decodeError => simp [loadAux, hae, ih]
    | .notFound => simp [loadAux, hae, ih]
    | .otherError => simp [loadAux, hae]

/-- If every encoding before `e` fails with a caught error and `e`
parses, the loop returns the normalized frame parsed under `e`, having
attempted exactly the encodings up to and including `e`. -/
lemma loadAux_first_success (attempt : String → AttemptResult) :
    ∀ (pre : List String) (e : String) (post : List String) (df : DataFrame),
      (∀ x ∈ pre, attempt x = .decodeError ∨ attempt x = .notFound) →
      attempt e = .success df →
      loadAux attempt (pre ++ e :: post) = (.ok (normalizeColumns df), pre ++ [e]) := by
  intro pre
  induction pre with
  | nil => intro e post df _ he; simp [loadAux, he]
  | cons p t ih =>
    intro e post df h he
    rcases h p (List.mem_cons_self p t) with hp | hp <;>
      simp [loadAux, hp, ih e post df (fun x hx => h x (List.mem_cons_of_mem p hx)) he]

/-- If every encoding before `e` fails with a caught error and `e` raises
an uncaught exception, the exception propagates at once: the loop stops
and the encodings after `e` are never attempted. -/
lemma loadAux_other_stops (attempt : String → AttemptResult) :
    ∀ (pre : List String) (e : String) (post : List String),
      (∀ x ∈ pre, attempt x = .decodeError ∨ attempt x = .notFound) →
      attempt e = .otherError →
      loadAux attempt (pre ++ e :: post) = (.raised, pre ++ [e]) := by
  intro pre
  induction pre with
  | nil => intro e post _ he; simp [loadAux, he]
  | cons p t ih =>
    intro e post h he
    rcases h p (List.mem_cons_self p t) with hp | hp <;>
      simp [loadAux, hp, ih e post (fun x hx => h x (List.mem_cons_of_mem p hx)) he]

/-- Any frame the loop returns successfully is a normalized frame. -/
lemma loadAux_ok_normalized (attempt : String → AttemptResult) :
    ∀ (es : List String) (df : DataFrame),
      (loadAux attempt es).1 = .ok df →
      ∃ raw, df = normalizeColumns raw := by
  intro es
  induction es with
  | nil => intro df h; simp [loadAux] at h
  | cons e t ih =>
    intro df h
    match hae : attempt e with
    | .success raw =>
      refine ⟨raw, ?_⟩
      simp [loadAux, hae] at h
      exact h.symm
    | .decodeError => simp [loadAux, hae] at h; exact ih df h
    | .notFound => simp [loadAux, hae] at h; exact ih df h
    | .otherError => simp [loadAux, hae] at h

/-- Normalized column names contain no space and no parenthesis. -/
lemma normalizeCol_no_special (s : String) :
    ∀ c ∈ (normalizeCol s).data, c ≠ ' ' ∧ c ≠ '(' ∧ c ≠ ')' := by
  intro c hc
  have h1 : c ∈ pyStrip s.data ∧ ¬c = ')' ∧ ¬c = '(' ∧ ¬c = ' ' := by
    simpa [normalizeCol, removeChar] using hc
  exact ⟨h1.2.2.2, h1.2.2.1, h1.2.1⟩

/-! ## Resolver lemmas -/

/-- A successful `find?` returns the first element satisfying the
predicate: everything before it falsifies the predicate. -/
lemma find?_first {α : Type} (p : α → Bool) :
    ∀ (l : List α) (a : α), l.find? p = some a →
      p a = true ∧ ∃ l₁ l₂, l = l₁ ++ a :: l₂ ∧ ∀ b ∈ l₁, p b = false := by
  intro l
  induction l with
  | nil => intro a h; simp at h
  | cons x t ih =>
    intro a h
    match hpx : p x with
    | true =>
      rw [List.find?_cons_of_pos _ hpx] at h
      obtain rfl : x = a := by simpa using h
      exact ⟨hpx, [], t, rfl, by simp⟩
    | false =>
      rw [List.find?_cons_of_neg _ (by simp [hpx])] at h
      obtain ⟨hpa, l₁, l₂, rfl, hall⟩ := ih a h
      refine ⟨hpa, x :: l₁, l₂, rfl, ?_⟩
      intro b hb
      rcases List.mem_cons.mp hb with rfl | hb
      · exact hpx
      · exact hall b hb

/-- Unfolding equation for the resolver loop on a nonempty mapping. -/
lemma resolveAux_cons (cols : List String) (r0 : String) (ns0 : List String)
    (rest : List (String × List String)) :
    resolveAux cols ((r0, ns0) :: rest) =
      match ns0.find? (fun n => cols.contains n) with
      | some name => (resolveAux cols rest).map (fun sel => (r0, name) :: sel)
      | none => .error (r0, ns0) := rfl

/-- When the resolver succeeds and the role keys are distinct (as they
are in `col_mapping`), the association it returns binds each role to the
first alias present among the columns. -/
lemma resolveAux_ok_lookup (cols : List String) :
    ∀ (mapping : List (String × List String)) (sel : List (String × String)),
      (mapping.map Prod.fst).Nodup →
      resolveAux cols mapping = .ok sel →
      ∀ role names, (role, names) ∈ mapping →
        sel.lookup role = names.find? (fun n => cols.contains n) := by
  intro mapping
  induction mapping with
  | nil => intro sel _ _ role names hmem; simp at hmem
  | cons m rest ih =>
    intro sel hnd hok role names hmem
    obtain ⟨r0, ns0⟩ := m
    match hfind : ns0.find? (fun n => cols.contains n) with
    | none =>
      rw [resolveAux_cons] at hok
      simp only [hfind] at hok
      exact Except.noConfusion hok
    | some n0 =>
      rw [resolveAux_cons] at hok
      simp only [hfind] at hok
      cases hrest : resolveAux cols rest with
      | error e => rw [hrest] at hok; exact Except.noConfusion hok
      | ok sel' =>
        rw [hrest] at hok
        have hsel : sel = (r0, n0) :: sel' := by
          simpa [Except.map] using hok.symm
        rcases List.mem_cons.mp hmem with hhead | htail
        · obtain ⟨rfl, rfl⟩ := Prod.mk.injEq .. ▸ hhead
          rw [hsel, hfind]
          simp [List.lookup]
        · have hr0 : r0 ∉ rest.map Prod.fst := (List.nodup_cons.mp (by simpa using hnd)).1
          have hrole : role ∈ rest.map Prod.fst :=
            List.mem_map_of_mem Prod.fst htail
          have hne : (role == r0) = false := by
            refine beq_eq_false_iff_ne.mpr ?_
            intro hcontra
            exact hr0 (hcontra ▸ hrole)
          rw [hsel]
          simp only [List.lookup, hne]
          exact ih sel' (List.nodup_cons.mp (by simpa using hnd)).2 hrest role names htail

/-- When the resolver fails, the reported role is one of the mapping's
roles and none of its aliases occurs among the columns. -/
lemma resolveAux_error (cols : List String) :
    ∀ (mapping : List (String × List String)) (role : String) (names : List String),
      resolveAux cols mapping = .error (role, names) →
      (role, names) ∈ mapping ∧ ∀ n ∈ names, cols.contains n = false := by
  intro mapping
  induction mapping with
  | nil => intro role names h; simp [resolveAux] at h
  | cons m rest ih =>
    intro role names h
    obtain ⟨r0, ns0⟩ := m
    match hfind : ns0.find? (fun n => cols.contains n) with
    | none =>
      rw [resolveAux_cons] at h
      simp only [hfind] at h
      have heq : r0 = role ∧ ns0 = names := by
        simpa [Except.error.injEq, Prod.mk.injEq] using h
      obtain ⟨rfl, rfl⟩ := heq
      refine ⟨List.mem_cons_self _ _, ?_⟩
      intro n hn
      have := List.find?_eq_none.mp hfind n hn
      simpa using this
    | some n0 =>
      rw [resolveAux_cons] at h
      simp only [hfind] at h
      cases hrest : resolveAux cols rest with
      | ok sel' => rw [hrest] at h; exact Except.noConfusion h
      | error e =>
        rw [hrest] at h
        have he : e = (role, names) := by
          simpa [Except.map] using h
        obtain ⟨hm, hall⟩ := ih role names (he ▸ hrest)
        exact ⟨List.mem_cons_of_mem _ hm, hall⟩

/-- When the resolver succeeds, every role found some alias. -/
lemma resolveAux_ok_resolved (cols : List String) :
    ∀ (mapping : List (String × List String)) (sel : List (String × String)),
      resolveAux cols mapping = .ok sel →
      ∀ role names, (role, names) ∈ mapping →
        ∃ n, names.find? (fun n => cols.contains n) = some n := by
  intro mapping
  induction mapping with
  | nil => intro sel _ role names hmem; simp at hmem
  | cons m rest ih =>
    intro sel hok role names hmem
    obtain ⟨r0, ns0⟩ := m
    match hfind : ns0.find? (fun n => cols.contains n) with
    | none =>
      rw [resolveAux_cons] at hok
      simp only [hfind] at hok
      exact Except.noConfusion hok
    | some n0 =>
      rw [resolveAux_cons] at hok
      simp only [hfind] at hok
      cases hrest : resolveAux cols rest with
      | error e => rw [hrest] at hok; exact Except.noConfusion hok
      | ok sel' =>
        rcases List.mem_cons.mp hmem with hhead | htail
        · obtain ⟨rfl, rfl⟩ := Prod.mk.injEq .. ▸ hhead
          exact ⟨n0, hfind⟩
        · exact ih sel' hrest role names htail

/-! ## Claim theorems -/

/-- C5: the loader tries utf-8, gbk, utf-16, utf-8-sig in that fixed
order and returns the dataset parsed by the first encoding that
succeeds; it ends in the load-error diagnostic exactly when every one of
the four encodings fails with a caught error — that is, only when the
file is missing (all attempts raise `FileNotFoundError`) or no encoding
decodes it. -/
theorem loader_first_success_and_exhaustion (attempt : String → AttemptResult) :
    (∀ (pre : List String) (e : String) (post : List String) (df : DataFrame),
        encodings = pre ++ e :: post →
        (∀ x ∈ pre, attempt x = .decodeError ∨ attempt x = .notFound) →
        attempt e = .success df →
        load_data attempt = .ok (normalizeColumns df))
    ∧ (load_data attempt = .loadError ↔
        ∀ e ∈ encodings, attempt e = .decodeError ∨ attempt e = .notFound) := by
  constructor
  · intro pre e post df henc hpre he
    unfold load_data
    rw [henc, loadAux_first_success attempt pre e post df hpre he]
  · exact loadAux_loadError_iff attempt encodings

/-- Witness for C5: a file that fails to decode as utf-8 but parses
under gbk loads successfully, returning the gbk parse. -/
theorem loader_first_success_witness :
    load_data attempt5 = .ok (normalizeColumns dfZh) :=
  (loader_first_success_and_exhaustion attempt5).1
    ["utf-8"] "gbk" ["utf-16", "utf-8-sig"] dfZh rfl (by decide) (by decide)

/-- C9 counterexample: after exhausting every encoding the loader's
diagnostic is the fixed message of line 23; as an undecodable file shows,
the loop does attempt all four encodings, but the message names none of
them, refuting the claim that the diagnostic names the attempted
encodings. -/
theorem load_error_message_omits_encodings :
    loadAux (fun _ => AttemptResult.decodeError) encodings = (.loadError, encodings)
    ∧ msgMentions load_error_message "utf-8" = false
    ∧ msgMentions load_error_message "gbk" = false
    ∧ msgMentions load_error_message "utf-16" = false
    ∧ msgMentions load_error_message "utf-8-sig" = false := by
  exact ⟨by decide, by decide, by decide, by decide, by decide⟩

/-- C9 (amended): when the file is present but undecodable in every
configured encoding, the loader fails with the load-error diagnostic
only after attempting all four encodings; the diagnostic prompts the
user to check file existence and encoding format but does not name the
attempted encodings. -/
theorem undecodable_file_exhausts_all_encodings (attempt : String → AttemptResult)
    (h : ∀ e ∈ encodings, attempt e = .decodeError) :
    load_data attempt = .loadError
    ∧ attemptedEncodings attempt = encodings
    ∧ ∀ e ∈ encodings, msgMentions load_error_message e = false := by
  have hall := loadAux_all_skip attempt encodings (fun e he => Or.inl (h e he))
  refine ⟨?_, ?_, by decide⟩
  · unfold load_data; rw [hall]
  · unfold attemptedEncodings; rw [hall]

/-- Witness for C9's amended theorem at a concrete undecodable file. -/
theorem undecodable_file_witness :
    load_data (fun _ => AttemptResult.decodeError) = .loadError
    ∧ attemptedEncodings (fun _ => AttemptResult.decodeError) = encodings := by
  have h := undecodable_file_exhausts_all_encodings
      (fun _ => AttemptResult.decodeError) (fun _ _ => rfl)
  exact ⟨h.1, h.2.1⟩

/-- C10: `FileNotFoundError` is caught inside the per-encoding loop just
like a decode failure — the next encoding is tried, a missing file
exhausts all four attempts and ends in exactly the same load-failure
result as a fully undecodable file — while an error that is neither a
decode error nor file-not-found propagates out at once, leaving the
remaining encodings untried. -/
theorem notfound_caught_other_errors_propagate :
    (∀ attempt : String → AttemptResult,
        (∀ e ∈ encodings, attempt e = .notFound) →
        loadAux attempt encodings = (.loadError, encodings))
    ∧ (∀ a₁ a₂ : String → AttemptResult,
        (∀ e ∈ encodings, a₁ e = .notFound) →
        (∀ e ∈ encodings, a₂ e = .decodeError) →
        loadAux a₁ encodings = loadAux a₂ encodings)
    ∧ (∀ (attempt : String → AttemptResult) (e : String) (rest : List String),
        attempt e = .notFound →
        loadAux attempt (e :: rest) =
          ((loadAux attempt rest).1, e :: (loadAux attempt rest).2))
    ∧ (∀ (attempt : String → AttemptResult) (pre : List String) (e : String)
          (post : List String),
        encodings = pre ++ e :: post →
        (∀ x ∈ pre, attempt x = .decodeError ∨ attempt x = .notFound) →
        attempt e = .otherError →
        loadAux attempt encodings = (.raised, pre ++ [e])) := by
  refine ⟨?_, ?_, ?_, ?_⟩
  · intro attempt h
    exact loadAux_all_skip attempt encodings (fun e he => Or.inr (h e he))
  · intro a₁ a₂ h₁ h₂
    rw [loadAux_all_skip a₁ encodings (fun e he => Or.inr (h₁ e he)),
        loadAux_all_skip a₂ encodings (fun e he => Or.inl (h₂ e he))]
  · intro attempt e rest he
    simp [loadAux, he]
  · intro attempt pre e post henc hpre he
    rw [henc]
    exact loadAux_other_stops attempt pre e post hpre he

/-- Witness for C10: a missing file (every attempt raises
`FileNotFoundError`) ends in the load-error diagnostic after all four
encodings; an uncaught error on the first encoding stops the loop with
only utf-8 attempted. -/
theorem notfound_caught_witness :
    loadAux (fun _ => AttemptResult.notFound) encodings = (.loadError, encodings)
    ∧ loadAux (fun _ => AttemptResult.otherError) encodings = (.raised, ["utf-8"]) := by
  refine ⟨notfound_caught_other_errors_propagate.1 _ (fun _ _ => rfl), ?_⟩
  exact notfound_caught_other_errors_propagate.2.2.2 _
    [] "utf-8" ["gbk", "utf-16", "utf-8-sig"] rfl (by simp) rfl

/-- C6 counterexample: the raw column name `"(\tcol)"` loads (under
utf-8) to the normalized name `"\tcol"`, which still begins with the tab
whitespace character: stripping happens before parenthesis removal, so a
loaded column name can retain leading whitespace, refuting the
trimmedness half of the claim. -/
theorem normalized_column_retains_whitespace :
    load_data attempt6 = .ok ⟨["\tcol"], []⟩
    ∧ isPySpace '\t' = true
    ∧ pyStrip ("\tcol").data ≠ ("\tcol").data := by
  exact ⟨by decide, rfl, by decide⟩

/-- C6 (amended): every column name of a successfully loaded dataset
contains no space and no parenthesis character (normalization strips
leading/trailing whitespace before removing those characters, so
trimmedness of the result is not guaranteed — see the counterexample). -/
theorem loaded_columns_free_of_space_and_paren (attempt : String → AttemptResult)
    (df : DataFrame) (h : load_data attempt = .ok df) :
    ∀ name ∈ df.columns, ∀ c ∈ name.data, c ≠ ' ' ∧ c ≠ '(' ∧ c ≠ ')' := by
  obtain ⟨raw, rfl⟩ := loadAux_ok_normalized attempt encodings df h
  intro name hname
  simp only [normalizeColumns] at hname
  obtain ⟨s, _, rfl⟩ := List.mem_map.mp hname
  exact normalizeCol_no_special s

/-- Witness for C6's amended theorem on a concrete loaded frame. -/
theorem loaded_columns_witness :
    load_data attempt6 = .ok ⟨["\tcol"], []⟩
    ∧ ('\t' ≠ ' ' ∧ '\t' ≠ '(' ∧ '\t' ≠ ')') := by
  refine ⟨by decide, ?_⟩
  exact loaded_columns_free_of_space_and_paren attempt6 ⟨["\tcol"], []⟩
    (by decide) "\tcol" (by decide) '\t' (by decide)

/-- C2: column resolution is alias-order-stable and fail-fast — on
success each role is bound to the first alias of its configured ordered
list that occurs among the dataset's columns (an alias is chosen exactly
when it is present and every earlier alias is absent), and whenever any
role has zero matching aliases the resolver fails, reporting a role and
its tried aliases none of which is present, producing no partial
binding. -/
theorem resolver_first_alias_and_fail_fast (cols : List String) :
    (∀ (sel : List (String × String)) (role : String) (names : List String),
        resolveCols cols = .ok sel → (role, names) ∈ col_mapping →
        sel.lookup role = names.find? (fun n => cols.contains n)
        ∧ ∀ a, sel.lookup role = some a →
            a ∈ names ∧ cols.contains a = true
            ∧ ∃ l₁ l₂, names = l₁ ++ a :: l₂ ∧ ∀ b ∈ l₁, cols.contains b = false)
    ∧ (∀ (role : String) (names : List String),
        resolveCols cols = .error (role, names) →
        (role, names) ∈ col_mapping ∧ ∀ n ∈ names, cols.contains n = false)
    ∧ (∀ (role : String) (names : List String),
        (role, names) ∈ col_mapping → (∀ n ∈ names, cols.contains n = false) →
        ∃ r ns, resolveCols cols = .error (r, ns)) := by
  refine ⟨?_, ?_, ?_⟩
  · intro sel role names hok hmem
    have hnd : (col_mapping.map Prod.fst).Nodup := by decide
    have hlook := resolveAux_ok_lookup cols col_mapping sel hnd hok role names hmem
    refine ⟨hlook, ?_⟩
    intro a ha
    rw [hlook] at ha
    obtain ⟨hpa, l₁, l₂, heq, hall⟩ := find?_first _ names a ha
    refine ⟨by simp [heq], by simpa using hpa, l₁, l₂, heq, hall⟩
  · intro role names herr
    exact resolveAux_error cols col_mapping role names herr
  · intro role names hmem hnone
    cases hres : resolveCols cols with
    | error e =>
      obtain ⟨r, ns⟩ := e
      exact ⟨r, ns, rfl⟩
    | ok sel =>
      obtain ⟨n, hn⟩ := resolveAux_ok_resolved cols col_mapping sel hres role names hmem
      have hmemn : n ∈ names := List.mem_of_find?_eq_some hn
      have hcont : cols.contains n = true := by simpa using List.find?_some hn
      rw [hnone n hmemn] at hcont
      exact absurd hcont (by simp)

/-- Witness for C2: with columns containing both `month` and `月份`, the
month role resolves to `月份`, the earlier alias in the configured list,
even though `month` is also present. -/
theorem resolver_first_alias_witness :
    ([("month", "月份"), ("temp", "temp"), ("rain", "降雨"),
      ("ph", "pH值"), ("crop", "crop")] : List (String × String)).lookup "month"
        = some "月份"
    ∧ cols0.contains "month" = true := by
  refine ⟨?_, by decide⟩
  have h := (resolver_first_alias_and_fail_fast cols0).1
      [("month", "月份"), ("temp", "temp"), ("rain", "降雨"),
       ("ph", "pH值"), ("crop", "crop")]
      "month" ["种植月", "月份", "month"] (by rfl) (by decide)
  rw [h.1]
  decide

/-- C3: training is deterministic — the trainer passes the literal seed
`random_state=42`, so the ambient randomness of two runs is irrelevant:
two trainings on an identical frame yield identical results, and the
resulting models predict identically on every fixed input. -/
theorem training_deterministic_across_runs (rng₁ rng₂ : Nat) (df : DataFrame) :
    train_model rng₁ df = train_model rng₂ df
    ∧ ∀ (m₁ m₂ : DTModel) (cols : List String) (row : List ℚ),
        train_model rng₁ df = .ok m₁ → train_model rng₂ df = .ok m₂ →
        m₁.predictOne cols row = m₂.predictOne cols row := by
  have heq : train_model rng₁ df = train_model rng₂ df := rfl
  refine ⟨heq, ?_⟩
  intro m₁ m₂ cols row h₁ h₂
  rw [heq, h₂] at h₁
  injection h₁ with h
  rw [h]

/-- Witness for C3 on the first-alias dataset with two different ambient
randomness values. -/
theorem training_deterministic_witness :
    train_model 0 dfZh = train_model 1 dfZh
    ∧ modelZh.predictOne input_columns [5, 25, 800, 6]
        = modelZh.predictOne input_columns [5, 25, 800, 6] := by
  have h := training_deterministic_across_runs 0 1 dfZh
  exact ⟨h.1, h.2 modelZh modelZh input_columns [5, 25, 800, 6] (by rfl) (by rfl)⟩

/-- C7: with a persisted model present the trainer is never invoked and
the stored artifact is unchanged; only with no persisted model is the
trainer invoked, and the freshly trained model is persisted (a trainer
failure propagates and persists nothing). -/
theorem persisted_model_skips_training (rng : Nat) (df : DataFrame)
    (store : Option DTModel) :
    (∀ m, store = some m → resolveModel rng df store = .ok (m, some m, false))
    ∧ (store = none →
        (∀ m, train_model rng df = .ok m →
            resolveModel rng df store = .ok (m, some m, true))
        ∧ ∀ e, train_model rng df = .error e →
            resolveModel rng df store = .error e) := by
  refine ⟨?_, ?_⟩
  · intro m hm; subst hm; rfl
  · intro hn; subst hn
    constructor
    · intro m hm; simp only [resolveModel, hm]
    · intro e he; simp only [resolveModel, he]

/-- Witness for C7: with `modelZh` persisted no training happens and the
store is unchanged; with an empty store the trainer runs and persists. -/
theorem persisted_model_witness :
    resolveModel 0 dfZh (some modelZh) = .ok (modelZh, some modelZh, false)
    ∧ resolveModel 0 dfZh none = .ok (modelZh, some modelZh, true) := by
  refine ⟨(persisted_model_skips_training 0 dfZh (some modelZh)).1 modelZh rfl, ?_⟩
  exact ((persisted_model_skips_training 0 dfZh none).2 rfl).1 modelZh (by rfl)

/-- C8: the prediction path applies no range check, so every in-range
input tuple — including the boundary values month=1, month=12, pH=3.0,
pH=9.0 and rainfall=0 — produces a predicted crop without error,
provided the model was fitted on the prediction-time column names (as a
model trained from the first-alias dataset is). -/
theorem in_range_inputs_produce_prediction (m : DTModel) (month temp rain : ℤ)
    (ph : ℚ) (hm : m.feature_names = input_columns)
    (hmonth : 1 ≤ month ∧ month ≤ 12) (htemp : 0 ≤ temp ∧ temp ≤ 40)
    (hrain : 0 ≤ rain ∧ rain ≤ 2000) (hph : 3 ≤ ph ∧ ph ≤ 9) :
    ∃ crop, predictCrop m month temp rain ph = .ok crop := by
  refine ⟨m.decide [(month : ℚ), (temp : ℚ), (rain : ℚ), ph], ?_⟩
  simp [predictCrop, DTModel.predictOne, hm]

/-- Witness for C8 at both extreme corners of the input ranges. -/
theorem boundary_inputs_witness :
    (∃ crop, predictCrop modelZh 1 0 0 3 = .ok crop)
    ∧ (∃ crop, predictCrop modelZh 12 40 2000 9 = .ok crop) := by
  constructor
  · exact in_range_inputs_produce_prediction modelZh 1 0 0 3 rfl
      ⟨by decide, by decide⟩ ⟨by decide, by decide⟩ ⟨by decide, by decide⟩
      ⟨by norm_num, by norm_num⟩
  · exact in_range_inputs_produce_prediction modelZh 12 40 2000 9 rfl
      ⟨by decide, by decide⟩ ⟨by decide, by decide⟩ ⟨by decide, by decide⟩
      ⟨by norm_num, by norm_num⟩

/-- C1 (code bug): the claim asks that prediction-time feature columns
always equal training-time columns, keyed by the resolved role map; the
code instead hard-codes the first-alias column names at prediction time
(line 90).  On a dataset using the accepted English aliases, training
fits on columns month/temp/rain/ph while prediction passes the
hard-coded names, and the classifier rejects the mismatching feature
names. -/
theorem prediction_feature_columns_diverge :
    train_model 0 dfEng = .ok modelEng
    ∧ modelEng.feature_names = ["month", "temp", "rain", "ph"]
    ∧ modelEng.feature_names ≠ input_columns
    ∧ predictCrop modelEng 5 25 800 7
        = .error (.featureNameMismatch modelEng.feature_names input_columns) := by
  exact ⟨by rfl, by rfl, by decide, by rfl⟩

/-- C4 counterexample: looking up descriptive fields for two different
predicted labels that are both absent from the dataset produces the very
same generic positional-index error — the error signalled carries no
label and is not a dedicated missing-description error; the prediction
block for a model predicting "Maize" reports the same generic error. -/
theorem missing_description_error_carries_no_label :
    crop_info df4 "Maize" = .error .indexError
    ∧ crop_info df4 "Wheat" = .error .indexError
    ∧ prediction_block modelM df4 1 1 1 1 = .error .indexError := by
  exact ⟨by rfl, by rfl, by rfl⟩

/-- C4 (amended): when the predicted label has no matching record in the
hard-coded `作物` column, the description lookup fails with the generic
positional-index error (which carries no label), the prediction block
propagates it to the error handler of line 115, and no partially-filled
result is ever returned for that label. -/
theorem missing_description_generic_index_error (df : DataFrame) (crop : String)
    (hcol : df.columns.contains "作物" = true)
    (hnone : ∀ row ∈ df.rows, ¬ df.cell row "作物" = .str crop) :
    crop_info df crop = .error .indexError
    ∧ ∀ (m : DTModel) (month temp rain : ℤ) (ph : ℚ) (info : List Value),
        prediction_block m df month temp rain ph ≠ .ok (crop, info) := by
  have hfilter : df.rows.filter (fun row => df.cell row "作物" == .str crop) = [] := by
    refine List.filter_eq_nil_iff.mpr ?_
    intro row hrow
    simpa using hnone row hrow
  have hmem : "作物" ∈ df.columns := by simpa using hcol
  have hinfo : crop_info df crop = .error .indexError := by
    simp [crop_info, hmem, hfilter]
  refine ⟨hinfo, ?_⟩
  intro m month temp rain ph info hok
  cases hp : predictCrop m month temp rain ph with
  | error e => simp only [prediction_block, hp] at hok; exact Except.noConfusion hok
  | ok c =>
    cases hc : crop_info df c with
    | error e => simp only [prediction_block, hp, hc] at hok; exact Except.noConfusion hok
    | ok r =>
      have hcr : c = crop ∧ r = info := by
        simpa [prediction_block, hp, hc] using hok
      rw [hcr.1] at hc
      rw [hinfo] at hc
      exact Except.noConfusion hc

/-- Witness for C4's amended theorem: the "Maize"-absent scenario. -/
theorem missing_description_witness :
    crop_info df4 "Maize" = .error PredictError.indexError :=
  (missing_description_generic_index_error df4 "Maize" (by decide) (by decide)).1

end CropApp
